import Mathlib

/-!
Shallow embedding of the cfssl certificate-record store (`certdb`), the CRL
assembler (`crl.NewCRLFromFile` / `crl.NewCRLFromDB`) and the `gencrl` CLI
entry point's argument validation, together with theorems settling the
specification claims about them.

Conventions of the embedding:
* Go `time.Time` is modelled by `GoTime`: an instant (`val`, in nanoseconds)
  together with a location tag (`loc`); `t.UTC()` keeps the instant and sets
  the location to `"UTC"`.  The Go zero time is modelled as `val = 0`.
* Go `time.Duration` is an `Int` counted in nanoseconds, as in Go.
* The database is a pair of relations (lists of rows) plus the database
  clock (`CURRENT_TIMESTAMP`).  A SQL `UPDATE ... WHERE serial = x` touches
  every row whose serial equals `x` and reports the number of touched rows;
  an `INSERT` appends one row and reports one affected row.  `sqlx.Get`
  (used by `GetCertificate` / `GetOCSP`) returns the first matching row.
* Strings from the byte-buffer input of `NewCRLFromFile` are modelled as
  `List Char`; `strings.Split(s, "\n")` and `strings.TrimSpace` are embedded
  directly.
-/

/-- Go `time.Time`: an instant in nanoseconds plus a location tag. -/
structure GoTime where
  val : Int
  loc : String
deriving DecidableEq, Repr

namespace GoTime

/-- Go `t.UTC()`: same instant, location set to UTC. -/
def utc (t : GoTime) : GoTime := ⟨t.val, "UTC"⟩

/-- Go `t.Add(d)`: advance the instant by a duration (nanoseconds). -/
def add (t : GoTime) (d : Int) : GoTime := ⟨t.val + d, t.loc⟩

/-- Go `t.IsZero()` for our model: the zero instant. -/
def isZero (t : GoTime) : Bool := t.val = 0

end GoTime

/-- One nanosecond-per-second conversion factor, as in Go `time.Second`. -/
def goSecond : Int := 1000000000

/-- `certdb.CertificateRecord` (src/unnamed/part_000, lines 20-28). -/
structure CertificateRecord where
  Serial : String
  CALabel : String
  Status : String
  Reason : Int
  Expiry : GoTime
  RevokedAt : GoTime
  PEM : String
deriving DecidableEq, Repr

/-- `certdb.OCSPRecord` (src/unnamed/part_000, lines 32-36). -/
structure OCSPRecord where
  Serial : String
  Body : String
  Expiry : GoTime
deriving DecidableEq, Repr

/-- The database state: the two relations plus the database clock used for
`CURRENT_TIMESTAMP` in the SQL statements. -/
structure DBState where
  certs : List CertificateRecord
  ocsps : List OCSPRecord
  now : GoTime
deriving DecidableEq, Repr

/-- The error kinds the certificate store reports (`cferr.InsertionFailed`,
`cferr.RecordNotFound`, and the generic wrapped `cferr.Unknown`). -/
inductive CertStoreErr where
  | insertionFailed
  | recordNotFound
  | unknown
deriving DecidableEq, Repr

/-! ## Serial-list parsing (the flat-file CRL path)

`NewCRLFromFile` splits its input on `"\n"`, skips lines whose
`strings.TrimSpace` is empty, and feeds every other line to
`big.Int.SetString(value, 10)`, ignoring the returned success flag.
Go's `SetString` scans an optional sign and then a longest prefix of decimal
digits into the receiver; it reports failure when no digit is found or when
input remains after the digits, but in both cases the receiver keeps the
value scanned so far (zero when no digit was consumed). -/

/-- Go `strings.Split(s, "\n")` on a character list: `""` yields `[""]`. -/
def goSplitNL : List Char → List (List Char)
  | [] => [[]]
  | c :: rest =>
    if c = '\n' then [] :: goSplitNL rest
    else
      match goSplitNL rest with
      | [] => [[c]]
      | l :: ls => (c :: l) :: ls

/-- The ASCII white-space characters recognised by Go `unicode.IsSpace`
(the inputs of this subsystem are ASCII). -/
def goIsSpace (c : Char) : Bool :=
  c = ' ' || c = '\t' || c = '\n' || c = '\x0b' || c = '\x0c' || c = '\r'

/-- Go `strings.TrimSpace` on a character list. -/
def goTrimSpace (l : List Char) : List Char :=
  ((l.dropWhile goIsSpace).reverse.dropWhile goIsSpace).reverse

/-- Decimal digit test. -/
def isDecDigit (c : Char) : Bool := '0' ≤ c && c ≤ '9'

/-- Numeric value of a list of decimal digits, most significant first. -/
def decDigitsVal (l : List Char) : Nat :=
  l.foldl (fun a c => 10 * a + (c.toNat - 48)) 0

/-- Go `math/big`'s sign scan: consume one leading `'+'` or `'-'`. -/
def goScanSign : List Char → Bool × List Char
  | [] => (false, [])
  | c :: rest =>
    if c = '-' then (true, rest)
    else if c = '+' then (false, rest)
    else (false, c :: rest)

/-- Go `(*big.Int).SetString(s, 10)` as used by the CRL assembler: returns
the value left in the receiver and the success flag.  On success the value
is the decimal number denoted by `s`; on failure the receiver holds the
value of the digits scanned before the scan stopped (zero when none). -/
def goSetStringInt10 (l : List Char) : Int × Bool :=
  let (neg, afterSign) := goScanSign l
  let digits := afterSign.takeWhile isDecDigit
  let rest := afterSign.dropWhile isDecDigit
  let a : Nat := decDigitsVal digits
  let v : Int := if neg then -(a : Int) else (a : Int)
  if digits = [] then (0, false)
  else if rest ≠ [] then (v, false)
  else (v, true)

/-- One entry of a CRL: a revoked serial plus its revocation time
(`pkix.RevokedCertificate`). -/
structure RevokedCert where
  SerialNumber : Int
  RevocationTime : GoTime
deriving DecidableEq, Repr

/-- The content of a generated CRL handed to the signer: the revoked-entry
list, `thisUpdate` and `nextUpdate`. -/
structure CRLContent where
  revoked : List RevokedCert
  thisUpdate : GoTime
  nextUpdate : GoTime
deriving DecidableEq, Repr

/-- Errors of the CRL assembly paths: PEM certificate or key parse failure. -/
inductive CrlErr where
  | certParse
  | keyParse
deriving DecidableEq, Repr

/-- The loop of `NewCRLFromFile` (src/crl, lines 189-201): for every line
whose `TrimSpace` is nonempty, emit a revoked entry whose serial is whatever
`SetString(value, 10)` left in the fresh `big.Int` and whose revocation time
is "now". -/
def revokedFromLines (now : GoTime) : List (List Char) → List RevokedCert
  | [] => []
  | line :: rest =>
    if (goTrimSpace line).length = 0 then revokedFromLines now rest
    else ⟨(goSetStringInt10 line).1, now⟩ :: revokedFromLines now rest

/-- `crl.NewCRLFromFile` (src/crl, lines 170-211), down to the content handed
to `CreateGenericCRL`.  The PEM parses are external; their outcomes enter as
the flags `issuerOk` and `keyOk`, checked in the source's order.  `now` is
the wall clock and `expiryDuration` the caller-supplied duration (ns). -/
def NewCRLFromFile (serialList : List Char) (issuerOk keyOk : Bool)
    (expiryDuration : Int) (now : GoTime) : Except CrlErr CRLContent :=
  let oneWeek : Int := 604800 * goSecond
  let newExpiryTime := if expiryDuration = 0 then now.add oneWeek else now.add expiryDuration
  if issuerOk = false then .error .certParse
  else
    let individualCerts := goSplitNL serialList
    let revokedCerts := revokedFromLines now individualCerts
    if keyOk = false then .error .keyParse
    else .ok ⟨revokedCerts, now, newExpiryTime⟩

/-- Modelled from the spec: `certdb.GetRevokedCertificates` is called by
`crl.NewCRLFromDB` but its body is not among the provided sources; the spec
describes it as "an enumeration of all records with status=`revoked`". -/
def GetRevokedCertificates (s : DBState) : List CertificateRecord :=
  s.certs.filter (fun cr => cr.Status = "revoked")

/-- `crl.NewCRLFromDB` (src/crl, lines 215-253), down to the content handed
to `CreateGenericCRL`: each revoked record contributes its serial (via
`SetString(cr.Serial, 10)`) and its stored `RevokedAt` verbatim. -/
def NewCRLFromDB (s : DBState) (issuerOk keyOk : Bool)
    (expiryDuration : Int) (now : GoTime) : Except CrlErr CRLContent :=
  let oneWeek : Int := 604800 * goSecond
  let newExpiryTime := if expiryDuration = 0 then now.add oneWeek else now.add expiryDuration
  if issuerOk = false then .error .certParse
  else if keyOk = false then .error .keyParse
  else
    let revokedCerts := (GetRevokedCertificates s).map
      (fun cr => ⟨(goSetStringInt10 cr.Serial.data).1, cr.RevokedAt⟩)
    .ok ⟨revokedCerts, now, newExpiryTime⟩

/-! ## The record store (`certdb`, src/unnamed/part_000)

Insert statements append one row; the number of rows the driver reports as
affected enters as an explicit argument (`rowsAffected`), since the row-count
ladder after every write is precisely what the store checks.  Update
statements affect every row matching the `WHERE (serial = :serial)` clause,
so there the affected count is determined by the state itself. -/

/-- The row-count ladder shared by every write of the store
(e.g. src/unnamed/part_000, lines 99-109): zero affected rows yield the
operation's distinguished error kind, any count other than one yields the
generic wrapped store error, exactly one is success. -/
def rowsAffectedCheck (zeroKind : CertStoreErr) (n : Int) : Option CertStoreErr :=
  if n = 0 then some zeroKind
  else if n ≠ 1 then some .unknown
  else none

/-- The record `InsertCertificate` hands to `insertSQL`
(src/unnamed/part_000, lines 86-94): all fields of the argument, with both
timestamps normalized to UTC. -/
def insertWrittenCert (cr : CertificateRecord) : CertificateRecord :=
  { cr with Expiry := cr.Expiry.utc, RevokedAt := cr.RevokedAt.utc }

/-- `certdb.InsertCertificate` (src/unnamed/part_000, lines 85-110).  The
insert appends the UTC-normalized record when the driver reports an affected
row; the error returned is the row-count ladder with `InsertionFailed` as the
zero-rows kind. -/
def InsertCertificate (s : DBState) (cr : CertificateRecord) (rowsAffected : Int) :
    DBState × Option CertStoreErr :=
  let written := insertWrittenCert cr
  let s' := if rowsAffected = 0 then s else { s with certs := s.certs ++ [written] }
  (s', rowsAffectedCheck .insertionFailed rowsAffected)

/-- `certdb.GetCertificate` (src/unnamed/part_000, lines 113-121):
`sqlx.Get` returns the first row matching the serial; no row is the
store-error case, modelled as `none`. -/
def GetCertificate (s : DBState) (serial : String) : Option CertificateRecord :=
  s.certs.find? (fun cr => cr.Serial = serial)

/-- `certdb.RevokeCertificate` (src/unnamed/part_000, lines 135-156):
executes `updateRevokeSQL` — every row matching the serial gets
`status='revoked'`, `revoked_at=CURRENT_TIMESTAMP` (the database clock) and
`reason=:reason` — then applies the row-count ladder with `RecordNotFound`
as the zero-rows kind. -/
def RevokeCertificate (s : DBState) (serial : String) (reasonCode : Int) :
    DBState × Option CertStoreErr :=
  let matched := s.certs.filter (fun cr => cr.Serial = serial)
  let certs' := s.certs.map (fun cr =>
    if cr.Serial = serial then
      { cr with Status := "revoked", RevokedAt := s.now, Reason := reasonCode }
    else cr)
  let s' := { s with certs := certs' }
  (s', rowsAffectedCheck .recordNotFound matched.length)

/-- The record `InsertOCSP` hands to `insertOCSPSQL`
(src/unnamed/part_000, lines 160-164): expiry normalized to UTC. -/
def insertWrittenOCSP (rr : OCSPRecord) : OCSPRecord :=
  { rr with Expiry := rr.Expiry.utc }

/-- `certdb.InsertOCSP` (src/unnamed/part_000, lines 159-180). -/
def InsertOCSP (s : DBState) (rr : OCSPRecord) (rowsAffected : Int) :
    DBState × Option CertStoreErr :=
  let written := insertWrittenOCSP rr
  let s' := if rowsAffected = 0 then s else { s with ocsps := s.ocsps ++ [written] }
  (s', rowsAffectedCheck .insertionFailed rowsAffected)

/-- `certdb.GetOCSP` (src/unnamed/part_000, lines 183-191). -/
def GetOCSP (s : DBState) (serial : String) : Option OCSPRecord :=
  s.ocsps.find? (fun rr => rr.Serial = serial)

/-- `certdb.UpdateOCSP` (src/unnamed/part_000, lines 205-227): executes
`updateOCSPSQL` — every row matching the serial gets the new body and the
UTC-normalized expiry — then applies the row-count ladder with
`RecordNotFound` as the zero-rows kind. -/
def UpdateOCSP (s : DBState) (serial body : String) (expiry : GoTime) :
    DBState × Option CertStoreErr :=
  let matched := s.ocsps.filter (fun rr => rr.Serial = serial)
  let ocsps' := s.ocsps.map (fun rr =>
    if rr.Serial = serial then { rr with Expiry := expiry.utc, Body := body } else rr)
  let s' := { s with ocsps := ocsps' }
  (s', rowsAffectedCheck .recordNotFound matched.length)

/-- `certdb.UpsertOCSP` (src/unnamed/part_000, lines 245-267): runs the same
`updateOCSPSQL` statement; when it affected zero rows, falls back to
`InsertOCSP` with the same serial, body and expiry (the driver inserting the
one row); otherwise applies the usual row-count ladder. -/
def UpsertOCSP (s : DBState) (serial body : String) (expiry : GoTime) :
    DBState × Option CertStoreErr :=
  let matched := s.ocsps.filter (fun rr => rr.Serial = serial)
  let ocsps' := s.ocsps.map (fun rr =>
    if rr.Serial = serial then { rr with Expiry := expiry.utc, Body := body } else rr)
  let s' := { s with ocsps := ocsps' }
  if matched.length = 0 then InsertOCSP s' ⟨serial, body, expiry⟩ 1
  else if matched.length ≠ 1 then (s', some .unknown)
  else (s', none)

/-! ## The `gencrl` CLI entry point (src/cli/gencrl/gencrl.go) -/

/-- The slice of `cli.Config` that `gencrlMain` consults before reading any
file. -/
structure CLIConfig where
  dbConfigFile : String
  caFile : String
  caKeyFile : String
deriving DecidableEq, Repr

/-- How far `gencrlMain` gets with its inputs: either it returns a usage
error, or it proceeds to read the CA certificate and key files (everything
after line 42 of src/cli/gencrl/gencrl.go). -/
inductive GencrlOutcome where
  | usageErr (msg : String)
  | readInputs
deriving DecidableEq, Repr

/-- Whether the outcome is a usage error. -/
def GencrlOutcome.isUsageErr : GencrlOutcome → Bool
  | .usageErr _ => true
  | .readInputs => false

/-- The argument-validation prefix of `gencrlMain`
(src/cli/gencrl/gencrl.go, lines 27-42), in source order; it runs before any
file is read, any database opened, or any CRL produced. -/
def gencrlMain (args : List String) (c : CLIConfig) : GencrlOutcome :=
  if c.dbConfigFile ≠ "" ∧ args.length > 0 then
    .usageErr "Only provide either DB config file (with -db-config) or serial list"
  else if c.dbConfigFile = "" ∧ args.length = 0 then
    .usageErr "Need to provide either DB config file (with -db-config) or serial list"
  else if c.dbConfigFile = "" ∧ args.length > 1 then
    .usageErr "Provided too many arguments, only expected one"
  else if c.caFile = "" then
    .usageErr "Need a CA certificate (provide one with -ca)"
  else if c.caKeyFile = "" then
    .usageErr "Need a CA key (provide one with -ca-key)"
  else .readInputs

/-! ## Helper lemmas -/

/-- `find?` commutes with a map that does not change the predicate's verdict. -/
theorem find?_map_of_pred_inv {α : Type} (p : α → Bool) (g : α → α)
    (hg : ∀ r, p (g r) = p r) (l : List α) :
    (l.map g).find? p = (l.find? p).map g := by
  induction l with
  | nil => rfl
  | cons a t ih =>
    by_cases h : p a = true
    · rw [List.map_cons, List.find?_cons_of_pos _ (by rw [hg]; exact h),
        List.find?_cons_of_pos _ h]
      rfl
    · rw [List.map_cons, List.find?_cons_of_neg _ (by rw [hg]; simpa using h),
        List.find?_cons_of_neg _ (by simpa using h), ih]

/-- A conditional rewrite that never fires leaves the list unchanged. -/
theorem map_ite_eq_self_of_no_match {α : Type} (p : α → Prop) [DecidablePred p]
    (f : α → α) (l : List α) (h : ∀ r ∈ l, ¬ p r) :
    l.map (fun r => if p r then f r else r) = l := by
  induction l with
  | nil => rfl
  | cons a t ih =>
    rw [List.map_cons, if_neg (h a (List.mem_cons_self a t)),
      ih (fun r hr => h r (List.mem_cons_of_mem a hr))]

/-- Zero matching rows is the same as no element matching. -/
theorem filter_length_eq_zero_iff {α : Type} (p : α → Bool) (l : List α) :
    (l.filter p).length = 0 ↔ ∀ r ∈ l, p r = false := by
  rw [List.length_eq_zero, List.filter_eq_nil_iff]
  simp

/-- Digits are not white space. -/
theorem goIsSpace_eq_false_of_digit {c : Char} (h : isDecDigit c = true) :
    goIsSpace c = false := by
  by_contra hc
  have hc' : goIsSpace c = true := by
    cases hgs : goIsSpace c with
    | true => rfl
    | false => exact absurd hgs hc
  simp only [goIsSpace, Bool.or_eq_true, decide_eq_true_eq] at hc'
  rcases hc' with ((((rfl | rfl) | rfl) | rfl) | rfl) | rfl <;> simp [isDecDigit] at h

/-- The trimmed line is empty exactly when every character is white space. -/
theorem goTrimSpace_length_eq_zero_iff (l : List Char) :
    (goTrimSpace l).length = 0 ↔ ∀ c ∈ l, goIsSpace c = true := by
  unfold goTrimSpace
  rw [List.length_eq_zero, List.reverse_eq_nil_iff, List.dropWhile_eq_nil_iff]
  constructor
  · intro h c hc
    have hdecomp := List.takeWhile_append_dropWhile goIsSpace l
    rw [← hdecomp] at hc
    rcases List.mem_append.mp hc with htk | hdr
    · exact List.mem_takeWhile_imp htk
    · exact h c (List.mem_reverse.mpr hdr)
  · intro h c hc
    exact h c ((List.dropWhile_sublist goIsSpace).mem (List.mem_reverse.mp hc))

/-- Splitting a newline-free buffer yields that single line. -/
theorem goSplitNL_of_no_newline (l : List Char) (h : '\n' ∉ l) :
    goSplitNL l = [l] := by
  induction l with
  | nil => rfl
  | cons c t ih =>
    have hc : ¬ c = '\n' := fun hcn => h (hcn ▸ List.mem_cons_self c t)
    have ht := ih (fun hm => h (List.mem_cons_of_mem c hm))
    simp only [goSplitNL, if_neg hc, ht]

/-- On a nonempty all-digit line, Go's `SetString(·, 10)` succeeds and
returns the decimal value of the digits. -/
theorem goSetStringInt10_numeral (l : List Char) (hne : l ≠ [])
    (hdig : ∀ c ∈ l, isDecDigit c = true) :
    goSetStringInt10 l = ((decDigitsVal l : Int), true) := by
  obtain ⟨c, t, rfl⟩ := List.exists_cons_of_ne_nil hne
  have hc := hdig c (List.mem_cons_self c t)
  have hcm : ¬ c = '-' := by rintro rfl; simp [isDecDigit] at hc
  have hcp : ¬ c = '+' := by rintro rfl; simp [isDecDigit] at hc
  have hsign : goScanSign (c :: t) = (false, c :: t) := by
    simp only [goScanSign, if_neg hcm, if_neg hcp]
  have htake : (c :: t).takeWhile isDecDigit = c :: t :=
    List.takeWhile_eq_self_iff.mpr hdig
  have hdrop : (c :: t).dropWhile isDecDigit = [] :=
    List.dropWhile_eq_nil_iff.mpr hdig
  simp only [goSetStringInt10, hsign, htake, hdrop]
  simp

/-! ## Claim theorems -/

/-- C3: in both CRL construction paths, when the PEM inputs parse, the CRL's
`nextUpdate` is `now + 604800` seconds when the caller-supplied expiry
duration is zero, and `now + duration` for every nonzero duration. -/
theorem crl_nextUpdate_default_one_week (input : List Char) (s : DBState)
    (d : Int) (now : GoTime) :
    ((NewCRLFromFile input true true d now).toOption.map CRLContent.nextUpdate
      = some (now.add (if d = 0 then 604800 * goSecond else d)))
    ∧ ((NewCRLFromDB s true true d now).toOption.map CRLContent.nextUpdate
      = some (now.add (if d = 0 then 604800 * goSecond else d))) := by
  by_cases h : d = 0 <;>
    simp [NewCRLFromFile, NewCRLFromDB, h, Except.toOption]

/-- Closed corollary of `crl_nextUpdate_default_one_week` at a concrete
input. -/
theorem crl_nextUpdate_default_one_week_witness :
    ((NewCRLFromFile ['1'] true true 0 ⟨5, "Local"⟩).toOption.map CRLContent.nextUpdate
      = some (GoTime.add ⟨5, "Local"⟩ (if (0 : Int) = 0 then 604800 * goSecond else 0)))
    ∧ ((NewCRLFromDB ⟨[], [], ⟨7, "UTC"⟩⟩ true true 0 ⟨5, "Local"⟩).toOption.map CRLContent.nextUpdate
      = some (GoTime.add ⟨5, "Local"⟩ (if (0 : Int) = 0 then 604800 * goSecond else 0))) :=
  crl_nextUpdate_default_one_week ['1'] ⟨[], [], ⟨7, "UTC"⟩⟩ 0 ⟨5, "Local"⟩

/-- A sample store state used by several concrete witnesses. -/
def wDB : DBState :=
  ⟨[⟨"7", "lbl", "good", 0, ⟨9, "UTC"⟩, ⟨0, "UTC"⟩, "pem"⟩],
   [⟨"7", "body", ⟨4, "UTC"⟩⟩], ⟨77, "UTC"⟩⟩

/-- A sample certificate record used by several concrete witnesses. -/
def wCert : CertificateRecord := ⟨"8", "lbl", "good", 0, ⟨9, "L"⟩, ⟨3, "L"⟩, "pem"⟩

/-- C5: `InsertCertificate` writes all fields of the given record with its
timestamps normalized to UTC; it fails with the `InsertionFailed` kind
exactly when the write affects zero rows, fails with the generic wrapped
store error when more than one row is affected, and succeeds exactly when
one row is affected. -/
theorem insertCertificate_fields_and_rows (s : DBState) (cr : CertificateRecord) (n : Int) :
    ((InsertCertificate s cr n).2 = some .insertionFailed ↔ n = 0)
    ∧ (1 < n → (InsertCertificate s cr n).2 = some .unknown)
    ∧ ((InsertCertificate s cr n).2 = none ↔ n = 1)
    ∧ (n = 1 → ∃ w, (InsertCertificate s cr n).1.certs = s.certs ++ [w]
        ∧ w.Serial = cr.Serial ∧ w.CALabel = cr.CALabel ∧ w.Status = cr.Status
        ∧ w.Reason = cr.Reason ∧ w.Expiry = cr.Expiry.utc
        ∧ w.RevokedAt = cr.RevokedAt.utc ∧ w.PEM = cr.PEM) := by
  refine ⟨?_, ?_, ?_, ?_⟩
  · simp only [InsertCertificate, rowsAffectedCheck]
    by_cases h0 : n = 0
    · simp [h0]
    · by_cases h1 : n = 1 <;> simp [h0, h1]
  · intro hn
    have h0 : ¬ n = 0 := by omega
    have h1 : ¬ n = 1 := by omega
    simp [InsertCertificate, rowsAffectedCheck, h0, h1]
  · simp only [InsertCertificate, rowsAffectedCheck]
    by_cases h0 : n = 0
    · simp [h0]
    · by_cases h1 : n = 1 <;> simp [h0, h1]
  · intro hn
    subst hn
    exact ⟨insertWrittenCert cr, by simp [InsertCertificate], rfl, rfl, rfl, rfl, rfl, rfl, rfl⟩

/-- Closed corollary of `insertCertificate_fields_and_rows`: a write that
affects two rows yields the generic wrapped store error. -/
theorem insertCertificate_fields_and_rows_witness :
    (1 : Int) < 2 ∧ (InsertCertificate wDB wCert 2).2 = some .unknown :=
  ⟨by decide, (insertCertificate_fields_and_rows wDB wCert 2).2.1 (by decide)⟩

/-- C9: the `gencrl` entry point returns a usage error — before any file is
read, any database opened, or any CRL produced (`gencrlMain` models exactly
the validation prefix that runs before those) — exactly when a DB config is
supplied together with positional arguments, neither source is supplied,
no DB config is supplied with more than one positional argument, or the CA
certificate or CA key path is empty. -/
theorem gencrlMain_usage_error_iff (args : List String) (c : CLIConfig) :
    (gencrlMain args c).isUsageErr = true ↔
      ((c.dbConfigFile ≠ "" ∧ args.length > 0)
        ∨ (c.dbConfigFile = "" ∧ args.length = 0)
        ∨ (c.dbConfigFile = "" ∧ args.length > 1)
        ∨ c.caFile = "" ∨ c.caKeyFile = "") := by
  unfold gencrlMain
  split_ifs with h1 h2 h3 h4 h5
  · exact iff_of_true rfl (Or.inl h1)
  · exact iff_of_true rfl (Or.inr (Or.inl h2))
  · exact iff_of_true rfl (Or.inr (Or.inr (Or.inl h3)))
  · exact iff_of_true rfl (Or.inr (Or.inr (Or.inr (Or.inl h4))))
  · exact iff_of_true rfl (Or.inr (Or.inr (Or.inr (Or.inr h5))))
  · refine iff_of_false (by simp [GencrlOutcome.isUsageErr]) ?_
    rintro (h | h | h | h | h)
    · exact h1 h
    · exact h2 h
    · exact h3 h
    · exact h4 h
    · exact h5 h

/-- Closed corollary of `gencrlMain_usage_error_iff`: giving a DB config and
a positional argument at once is a usage error. -/
theorem gencrlMain_usage_error_iff_witness :
    (gencrlMain ["serials.txt"] ⟨"db.json", "ca.pem", "ca-key.pem"⟩).isUsageErr = true :=
  (gencrlMain_usage_error_iff ["serials.txt"] ⟨"db.json", "ca.pem", "ca-key.pem"⟩).mpr
    (Or.inl ⟨by decide, by decide⟩)

/-- C6: `RevokeCertificate` fails with `RecordNotFound` exactly when zero
rows match the serial, fails with the generic wrapped store error when more
than one row matches, succeeds when exactly one matches, and turns the
matching record's status to `revoked` with the given reason code and the
database's current time as `revokedAt`. -/
theorem revokeCertificate_rows_and_effect (s : DBState) (serial : String) (reasonCode : Int) :
    ((RevokeCertificate s serial reasonCode).2 = some .recordNotFound
      ↔ (s.certs.filter (fun cr => cr.Serial = serial)).length = 0)
    ∧ (1 < (s.certs.filter (fun cr => cr.Serial = serial)).length →
      (RevokeCertificate s serial reasonCode).2 = some .unknown)
    ∧ ((s.certs.filter (fun cr => cr.Serial = serial)).length = 1 →
      (RevokeCertificate s serial reasonCode).2 = none)
    ∧ (∀ r₀, GetCertificate s serial = some r₀ →
      GetCertificate (RevokeCertificate s serial reasonCode).1 serial
        = some { r₀ with Status := "revoked", Reason := reasonCode, RevokedAt := s.now }) := by
  refine ⟨?_, ?_, ?_, ?_⟩
  · simp only [RevokeCertificate, rowsAffectedCheck]
    by_cases h0 : (s.certs.filter (fun cr => cr.Serial = serial)).length = 0
    · simp [h0]
    · by_cases h1 : (s.certs.filter (fun cr => cr.Serial = serial)).length = 1 <;>
        simp [h0, h1]
  · intro hn
    have h0 : ¬ (s.certs.filter (fun cr => cr.Serial = serial)).length = 0 := by omega
    have h1 : ¬ (s.certs.filter (fun cr => cr.Serial = serial)).length = 1 := by omega
    simp [RevokeCertificate, rowsAffectedCheck, h0, h1]
  · intro h1
    simp [RevokeCertificate, rowsAffectedCheck, h1]
  · intro r₀ h
    have key := find?_map_of_pred_inv (fun cr => cr.Serial = serial)
      (fun cr => if cr.Serial = serial then
        { cr with Status := "revoked", RevokedAt := s.now, Reason := reasonCode } else cr)
      (by intro r; by_cases hr : r.Serial = serial <;> simp [hr]) s.certs
    have hstate : (RevokeCertificate s serial reasonCode).1.certs
        = s.certs.map (fun cr => if cr.Serial = serial then
          { cr with Status := "revoked", RevokedAt := s.now, Reason := reasonCode } else cr) := rfl
    simp only [GetCertificate] at h ⊢
    rw [hstate, key, h]
    have hp : r₀.Serial = serial := by simpa using List.find?_some h
    simp [hp]

/-- Closed corollary of `revokeCertificate_rows_and_effect`: revoking the one
matching record in the sample store succeeds and rewrites it. -/
theorem revokeCertificate_rows_and_effect_witness :
    (wDB.certs.filter (fun cr => cr.Serial = "7")).length = 1
    ∧ (RevokeCertificate wDB "7" 2).2 = none
    ∧ GetCertificate (RevokeCertificate wDB "7" 2).1 "7"
        = some ⟨"7", "lbl", "revoked", 2, ⟨9, "UTC"⟩, ⟨77, "UTC"⟩, "pem"⟩ :=
  ⟨by decide,
    (revokeCertificate_rows_and_effect wDB "7" 2).2.2.1 (by decide),
    (revokeCertificate_rows_and_effect wDB "7" 2).2.2.2
      ⟨"7", "lbl", "good", 0, ⟨9, "UTC"⟩, ⟨0, "UTC"⟩, "pem"⟩ (by decide)⟩

/-- C7: `UpdateOCSP` on a serial with no matching row fails with
`RecordNotFound` and leaves the state untouched (in particular it never
inserts); on a serial with exactly one matching row it succeeds and
overwrites that row's body and expiry (expiry normalized to UTC). -/
theorem updateOCSP_not_found_and_overwrite (s : DBState) (serial body : String) (expiry : GoTime) :
    ((s.ocsps.filter (fun rr => rr.Serial = serial)).length = 0 →
      UpdateOCSP s serial body expiry = (s, some .recordNotFound))
    ∧ ((UpdateOCSP s serial body expiry).2 = some .recordNotFound
      ↔ (s.ocsps.filter (fun rr => rr.Serial = serial)).length = 0)
    ∧ ((s.ocsps.filter (fun rr => rr.Serial = serial)).length = 1 →
      (UpdateOCSP s serial body expiry).2 = none
      ∧ GetOCSP (UpdateOCSP s serial body expiry).1 serial = some ⟨serial, body, expiry.utc⟩) := by
  refine ⟨?_, ?_, ?_⟩
  · intro h0
    have hall : ∀ rr ∈ s.ocsps, ¬ rr.Serial = serial := by
      have := (filter_length_eq_zero_iff
        (fun rr : OCSPRecord => decide (rr.Serial = serial)) s.ocsps).mp h0
      intro rr hrr
      simpa using this rr hrr
    have hmap := map_ite_eq_self_of_no_match (fun rr : OCSPRecord => rr.Serial = serial)
      (fun rr => { rr with Expiry := expiry.utc, Body := body }) s.ocsps hall
    simp only [UpdateOCSP, hmap, rowsAffectedCheck, h0]
    simp
  · simp only [UpdateOCSP, rowsAffectedCheck]
    by_cases h0 : (s.ocsps.filter (fun rr => rr.Serial = serial)).length = 0
    · simp [h0]
    · by_cases h1 : (s.ocsps.filter (fun rr => rr.Serial = serial)).length = 1 <;>
        simp [h0, h1]
  · intro h1
    refine ⟨by simp [UpdateOCSP, rowsAffectedCheck, h1], ?_⟩
    obtain ⟨r₁, hr₁⟩ := List.length_eq_one.mp h1
    have hr₁mem : r₁ ∈ s.ocsps.filter (fun rr => rr.Serial = serial) := by
      rw [hr₁]; exact List.mem_cons_self r₁ []
    have hmem := (List.mem_filter.mp hr₁mem).1
    have hserial : r₁.Serial = serial := by
      simpa using (List.mem_filter.mp hr₁mem).2
    have hsome : (s.ocsps.find? (fun rr => rr.Serial = serial)).isSome :=
      List.find?_isSome.mpr ⟨r₁, hmem, by simp [hserial]⟩
    obtain ⟨r₀, hr₀⟩ := Option.isSome_iff_exists.mp hsome
    have key := find?_map_of_pred_inv (fun rr => rr.Serial = serial)
      (fun rr => if rr.Serial = serial then
        { rr with Expiry := expiry.utc, Body := body } else rr)
      (by intro r; by_cases hr : r.Serial = serial <;> simp [hr]) s.ocsps
    have hstate : (UpdateOCSP s serial body expiry).1.ocsps
        = s.ocsps.map (fun rr => if rr.Serial = serial then
          { rr with Expiry := expiry.utc, Body := body } else rr) := rfl
    have hp : r₀.Serial = serial := by simpa using List.find?_some hr₀
    simp only [GetOCSP, hstate]
    rw [key, hr₀]
    cases r₀ with
    | mk a b c => simp_all

/-- Closed corollary of `updateOCSP_not_found_and_overwrite`: updating a
serial with no OCSP row fails with `RecordNotFound` and changes nothing. -/
theorem updateOCSP_not_found_and_overwrite_witness :
    (wDB.ocsps.filter (fun rr => rr.Serial = "9")).length = 0
    ∧ UpdateOCSP wDB "9" "newbody" ⟨8, "L"⟩ = (wDB, some .recordNotFound) :=
  ⟨by decide, (updateOCSP_not_found_and_overwrite wDB "9" "newbody" ⟨8, "L"⟩).1 (by decide)⟩

/-- C8: `UpsertOCSP` attempts the update first and falls back to inserting a
new OCSP record exactly when the update affects zero rows; after a
successful upsert, `GetOCSP` on that serial returns the given body and the
UTC-normalized expiry, whether or not a row existed before. -/
theorem upsertOCSP_update_then_insert (s : DBState) (serial body : String) (expiry : GoTime) :
    ((s.ocsps.filter (fun rr => rr.Serial = serial)).length = 0 →
      (UpsertOCSP s serial body expiry).1.ocsps = s.ocsps ++ [⟨serial, body, expiry.utc⟩]
      ∧ (UpsertOCSP s serial body expiry).2 = none)
    ∧ ((s.ocsps.filter (fun rr => rr.Serial = serial)).length ≠ 0 →
      (UpsertOCSP s serial body expiry).1.ocsps.length = s.ocsps.length)
    ∧ ((UpsertOCSP s serial body expiry).2 = none →
      GetOCSP (UpsertOCSP s serial body expiry).1 serial = some ⟨serial, body, expiry.utc⟩) := by
  have hkey := find?_map_of_pred_inv (fun rr => rr.Serial = serial)
    (fun rr => if rr.Serial = serial then
      { rr with Expiry := expiry.utc, Body := body } else rr)
    (by intro r; by_cases hr : r.Serial = serial <;> simp [hr]) s.ocsps
  refine ⟨?_, ?_, ?_⟩
  · intro h0
    have hall : ∀ rr ∈ s.ocsps, ¬ rr.Serial = serial := by
      have := (filter_length_eq_zero_iff
        (fun rr : OCSPRecord => decide (rr.Serial = serial)) s.ocsps).mp h0
      intro rr hrr
      simpa using this rr hrr
    have hmap := map_ite_eq_self_of_no_match (fun rr : OCSPRecord => rr.Serial = serial)
      (fun rr => { rr with Expiry := expiry.utc, Body := body }) s.ocsps hall
    constructor
    · simp only [UpsertOCSP, h0, if_pos rfl, InsertOCSP, insertWrittenOCSP, hmap]
      simp
    · simp only [UpsertOCSP, h0, if_pos rfl, InsertOCSP, rowsAffectedCheck]
      simp
  · intro h0
    by_cases h1 : (s.ocsps.filter (fun rr => rr.Serial = serial)).length = 1 <;>
      simp [UpsertOCSP, h0, h1]
  · intro hnone
    by_cases h0 : (s.ocsps.filter (fun rr => rr.Serial = serial)).length = 0
    · have hall : ∀ rr ∈ s.ocsps, ¬ rr.Serial = serial := by
        have := (filter_length_eq_zero_iff
          (fun rr : OCSPRecord => decide (rr.Serial = serial)) s.ocsps).mp h0
        intro rr hrr
        simpa using this rr hrr
      have hmap := map_ite_eq_self_of_no_match (fun rr : OCSPRecord => rr.Serial = serial)
        (fun rr => { rr with Expiry := expiry.utc, Body := body }) s.ocsps hall
      have hnf : s.ocsps.find? (fun rr => rr.Serial = serial) = none :=
        List.find?_eq_none.mpr (by intro x hx; simpa using hall x hx)
      have hstate : (UpsertOCSP s serial body expiry).1.ocsps
          = s.ocsps ++ [⟨serial, body, expiry.utc⟩] := by
        simp only [UpsertOCSP, h0, if_pos rfl, InsertOCSP, insertWrittenOCSP, hmap]
        simp
      simp only [GetOCSP, hstate, List.find?_append, hnf, Option.none_or]
      rw [List.find?_cons_of_pos _ (by simp)]
    · by_cases h1 : (s.ocsps.filter (fun rr => rr.Serial = serial)).length = 1
      · obtain ⟨r₁, hr₁⟩ := List.length_eq_one.mp h1
        have hr₁mem : r₁ ∈ s.ocsps.filter (fun rr => rr.Serial = serial) := by
          rw [hr₁]; exact List.mem_cons_self r₁ []
        have hmem := (List.mem_filter.mp hr₁mem).1
        have hserial : r₁.Serial = serial := by
          simpa using (List.mem_filter.mp hr₁mem).2
        have hsome : (s.ocsps.find? (fun rr => rr.Serial = serial)).isSome :=
          List.find?_isSome.mpr ⟨r₁, hmem, by simp [hserial]⟩
        obtain ⟨r₀, hr₀⟩ := Option.isSome_iff_exists.mp hsome
        have hp : r₀.Serial = serial := by simpa using List.find?_some hr₀
        have hstate : (UpsertOCSP s serial body expiry).1.ocsps
            = s.ocsps.map (fun rr => if rr.Serial = serial then
              { rr with Expiry := expiry.utc, Body := body } else rr) := by
          simp [UpsertOCSP, h0, h1]
        simp only [GetOCSP, hstate]
        rw [hkey, hr₀]
        cases r₀ with
        | mk a b c => simp_all
      · exfalso
        simp [UpsertOCSP, h0, h1] at hnone

/-- Closed corollary of `upsertOCSP_update_then_insert`: upserting a serial
with no OCSP row inserts one, and `GetOCSP` then returns the given values. -/
theorem upsertOCSP_update_then_insert_witness :
    (wDB.ocsps.filter (fun rr => rr.Serial = "9")).length = 0
    ∧ (UpsertOCSP wDB "9" "b9" ⟨8, "L"⟩).1.ocsps
        = wDB.ocsps ++ [⟨"9", "b9", ⟨8, "UTC"⟩⟩]
    ∧ (UpsertOCSP wDB "9" "b9" ⟨8, "L"⟩).2 = none :=
  ⟨by decide,
    ((upsertOCSP_update_then_insert wDB "9" "b9" ⟨8, "L"⟩).1 (by decide)).1,
    ((upsertOCSP_update_then_insert wDB "9" "b9" ⟨8, "L"⟩).1 (by decide)).2⟩

/-- C10: the store does not enforce the "revokedAt is unset iff status is
good" invariant at the insertion boundary: a record with status `good` and a
nonzero `revokedAt` is accepted by `InsertCertificate`, stored with the
nonzero timestamp merely normalized to UTC, and returned unrepaired by
`GetCertificate`. -/
theorem insertCertificate_accepts_good_with_revokedAt (s : DBState) (cr : CertificateRecord)
    (hstatus : cr.Status = "good") (hrev : cr.RevokedAt.val ≠ 0)
    (hfresh : ∀ r ∈ s.certs, r.Serial ≠ cr.Serial) :
    (InsertCertificate s cr 1).2 = none
    ∧ GetCertificate (InsertCertificate s cr 1).1 cr.Serial = some (insertWrittenCert cr)
    ∧ (insertWrittenCert cr).Status = "good"
    ∧ (insertWrittenCert cr).RevokedAt = cr.RevokedAt.utc
    ∧ (insertWrittenCert cr).RevokedAt.val ≠ 0 := by
  refine ⟨by simp [InsertCertificate, rowsAffectedCheck], ?_, hstatus, rfl, hrev⟩
  have hstate : (InsertCertificate s cr 1).1.certs = s.certs ++ [insertWrittenCert cr] := by
    simp [InsertCertificate]
  have hnf : s.certs.find? (fun r => r.Serial = cr.Serial) = none :=
    List.find?_eq_none.mpr (by intro x hx; simpa using hfresh x hx)
  simp only [GetCertificate, hstate, List.find?_append, hnf, Option.none_or]
  rw [List.find?_cons_of_pos _ (by simp [insertWrittenCert])]

/-- Closed corollary of `insertCertificate_accepts_good_with_revokedAt` at a
concrete record with status `good` and nonzero `revokedAt`. -/
theorem insertCertificate_accepts_good_with_revokedAt_witness :
    (wCert.Status = "good") ∧ (wCert.RevokedAt.val ≠ 0)
    ∧ (∀ r ∈ wDB.certs, r.Serial ≠ wCert.Serial)
    ∧ (InsertCertificate wDB wCert 1).2 = none
    ∧ GetCertificate (InsertCertificate wDB wCert 1).1 wCert.Serial
        = some (insertWrittenCert wCert) :=
  ⟨by decide, by decide, by decide,
    (insertCertificate_accepts_good_with_revokedAt wDB wCert (by decide) (by decide)
      (by decide)).1,
    (insertCertificate_accepts_good_with_revokedAt wDB wCert (by decide) (by decide)
      (by decide)).2.1⟩

/-- The serial-list loop on well-formed lines: blank lines are dropped and
every all-digit line contributes one entry carrying its decimal value. -/
theorem revokedFromLines_wf (now : GoTime) (lines : List (List Char))
    (hwf : ∀ l ∈ lines,
      (∀ c ∈ l, goIsSpace c = true) ∨ (l ≠ [] ∧ ∀ c ∈ l, isDecDigit c = true)) :
    revokedFromLines now lines
      = (lines.filter (fun l => !l.all goIsSpace)).map
          (fun l => ⟨(decDigitsVal l : Int), now⟩) := by
  induction lines with
  | nil => rfl
  | cons a t ih =>
    have ha := hwf a (List.mem_cons_self a t)
    have ht := ih (fun l hl => hwf l (List.mem_cons_of_mem a hl))
    rcases ha with hblank | ⟨hne, hdig⟩
    · have htrim : (goTrimSpace a).length = 0 :=
        (goTrimSpace_length_eq_zero_iff a).mpr hblank
      have hall : a.all goIsSpace = true := List.all_eq_true.mpr hblank
      simp only [revokedFromLines, if_pos htrim, ht, List.filter_cons, hall]
      simp
    · obtain ⟨c, t', rfl⟩ := List.exists_cons_of_ne_nil hne
      have hc := hdig c (List.mem_cons_self c t')
      have hcs : goIsSpace c = false := goIsSpace_eq_false_of_digit hc
      have hall : (c :: t').all goIsSpace = false := by
        apply Bool.eq_false_iff.mpr
        intro hTrue
        have := List.all_eq_true.mp hTrue c (List.mem_cons_self c t')
        rw [hcs] at this
        cases this
      have htrim : ¬ (goTrimSpace (c :: t')).length = 0 := by
        rw [goTrimSpace_length_eq_zero_iff]
        intro hallsp
        have := hallsp c (List.mem_cons_self c t')
        rw [hcs] at this
        cases this
      simp only [revokedFromLines, if_neg htrim, ht, List.filter_cons, hall,
        goSetStringInt10_numeral (c :: t') hne hdig]
      simp

/-- C1: for a serial-list buffer whose lines are blank or decimal numerals
(the numerals pairwise distinct), `NewCRLFromFile` yields a CRL whose
revoked-entry list has one entry per numeral line, in order, carrying that
line's decimal value; blank-only input gives the empty entry list. -/
theorem newCRLFromFile_entry_per_serial (input : List Char) (d : Int) (now : GoTime)
    (hwf : ∀ l ∈ goSplitNL input,
      (∀ c ∈ l, goIsSpace c = true) ∨ (l ≠ [] ∧ ∀ c ∈ l, isDecDigit c = true))
    (_hdistinct : (((goSplitNL input).filter (fun l => !l.all goIsSpace)).map decDigitsVal).Nodup) :
    ∃ content, NewCRLFromFile input true true d now = .ok content
      ∧ content.revoked = ((goSplitNL input).filter (fun l => !l.all goIsSpace)).map
          (fun l => ⟨(decDigitsVal l : Int), now⟩)
      ∧ content.revoked.length
          = ((goSplitNL input).filter (fun l => !l.all goIsSpace)).length := by
  have hrev := revokedFromLines_wf now (goSplitNL input) hwf
  refine ⟨⟨revokedFromLines now (goSplitNL input), now,
      if d = 0 then now.add (604800 * goSecond) else now.add d⟩,
    by simp [NewCRLFromFile], hrev, ?_⟩
  show (revokedFromLines now (goSplitNL input)).length = _
  rw [hrev]
  exact List.length_map _ _

/-- Closed corollary of `newCRLFromFile_entry_per_serial` at the concrete
buffer `"10\n \n20"`. -/
theorem newCRLFromFile_entry_per_serial_witness :
    (∀ l ∈ goSplitNL "10\n \n20".data,
      (∀ c ∈ l, goIsSpace c = true) ∨ (l ≠ [] ∧ ∀ c ∈ l, isDecDigit c = true))
    ∧ ∃ content, NewCRLFromFile "10\n \n20".data true true 0 ⟨5, "Local"⟩ = .ok content
      ∧ content.revoked = ((goSplitNL "10\n \n20".data).filter (fun l => !l.all goIsSpace)).map
          (fun l => ⟨(decDigitsVal l : Int), ⟨5, "Local"⟩⟩)
      ∧ content.revoked.length
          = ((goSplitNL "10\n \n20".data).filter (fun l => !l.all goIsSpace)).length :=
  ⟨by decide,
    newCRLFromFile_entry_per_serial "10\n \n20".data 0 ⟨5, "Local"⟩ (by decide) (by decide)⟩

/-- The value `SetString(·, 10)` leaves behind, for any input: the decimal
value of the longest digit prefix after an optional sign, negated for a
leading `'-'`. -/
theorem goSetStringInt10_fst (l : List Char) :
    (goSetStringInt10 l).1
      = (if (goScanSign l).1 then
          -(decDigitsVal (((goScanSign l).2).takeWhile isDecDigit) : Int)
        else (decDigitsVal (((goScanSign l).2).takeWhile isDecDigit) : Int)) := by
  rcases h : goScanSign l with ⟨neg, afterSign⟩
  simp only [goSetStringInt10, h]
  by_cases hd : afterSign.takeWhile isDecDigit = []
  · simp [hd, decDigitsVal]
  · by_cases hr : afterSign.dropWhile isDecDigit = [] <;> simp [hd, hr]

/-- C2 counterexample: the non-blank line `12abc` fails to parse as a valid
base-10 integer, yet the emitted entry carries serial 12 — not the
default/zero big-integer value the claim states. -/
theorem newCRLFromFile_unparsable_line_not_zero :
    ((goSetStringInt10 "12abc".data).2 = false)
    ∧ ¬ (∀ c ∈ "12abc".data, goIsSpace c = true)
    ∧ ((NewCRLFromFile "12abc".data true true 0 ⟨5, "Local"⟩).toOption.map CRLContent.revoked
        = some [⟨12, ⟨5, "Local"⟩⟩])
    ∧ (12 : Int) ≠ 0 :=
  ⟨by decide, by decide, by decide, by decide⟩

/-- C2 (amended): for a non-blank line that fails to parse as a valid
base-10 integer, the assembler still emits a revoked entry rather than
rejecting the line or the batch; the entry's serial is the value scanned
from the line's longest valid leading portion (an optional sign followed by
the leading digits), and it is the zero value when the line has no leading
digits. -/
theorem newCRLFromFile_unparsable_scanned_prefix (line : List Char) (d : Int) (now : GoTime)
    (hnb : ¬ ∀ c ∈ line, goIsSpace c = true)
    (hnl : '\n' ∉ line)
    (_hfail : (goSetStringInt10 line).2 = false) :
    ∃ content, NewCRLFromFile line true true d now = .ok content
      ∧ content.revoked
          = [⟨if (goScanSign line).1 then
                -(decDigitsVal (((goScanSign line).2).takeWhile isDecDigit) : Int)
              else (decDigitsVal (((goScanSign line).2).takeWhile isDecDigit) : Int), now⟩]
      ∧ (((goScanSign line).2).takeWhile isDecDigit = [] →
          content.revoked = [⟨0, now⟩]) := by
  have hsplit := goSplitNL_of_no_newline line hnl
  have htrim : ¬ (goTrimSpace line).length = 0 := by
    rw [goTrimSpace_length_eq_zero_iff]
    exact hnb
  have hrevlist : revokedFromLines now [line] = [⟨(goSetStringInt10 line).1, now⟩] := by
    simp [revokedFromLines, htrim]
  refine ⟨⟨[⟨(goSetStringInt10 line).1, now⟩], now,
      if d = 0 then now.add (604800 * goSecond) else now.add d⟩, ?_, ?_, ?_⟩
  · simp [NewCRLFromFile, hsplit, hrevlist]
  · simp [goSetStringInt10_fst line]
  · intro hdempty
    simp [goSetStringInt10_fst line, hdempty, decDigitsVal]

/-- Closed corollary of `newCRLFromFile_unparsable_scanned_prefix` at the
concrete line `12abc`. -/
theorem newCRLFromFile_unparsable_scanned_prefix_witness :
    (¬ ∀ c ∈ "12abc".data, goIsSpace c = true)
    ∧ ('\n' ∉ "12abc".data)
    ∧ ((goSetStringInt10 "12abc".data).2 = false)
    ∧ ∃ content, NewCRLFromFile "12abc".data true true 0 ⟨5, "Local"⟩ = .ok content
      ∧ content.revoked
          = [⟨if (goScanSign "12abc".data).1 then
                -(decDigitsVal (((goScanSign "12abc".data).2).takeWhile isDecDigit) : Int)
              else (decDigitsVal (((goScanSign "12abc".data).2).takeWhile isDecDigit) : Int),
              ⟨5, "Local"⟩⟩]
      ∧ (((goScanSign "12abc".data).2).takeWhile isDecDigit = [] →
          content.revoked = [⟨0, ⟨5, "Local"⟩⟩]) :=
  ⟨by decide, by decide, by decide,
    newCRLFromFile_unparsable_scanned_prefix "12abc".data 0 ⟨5, "Local"⟩
      (by decide) (by decide) (by decide)⟩

/-- C4: the CRL built from the database contains exactly the certificate
records whose stored status is `revoked` — records with status `good` are
excluded regardless of expiry — and each entry's revocation time is the
record's stored `RevokedAt` timestamp verbatim, with no substitution of the
current time. -/
theorem newCRLFromDB_exactly_revoked (s : DBState) (d : Int) (now : GoTime)
    (content : CRLContent) (h : NewCRLFromDB s true true d now = .ok content) :
    (∀ cr ∈ s.certs, cr.Status = "revoked" →
      (⟨(goSetStringInt10 cr.Serial.data).1, cr.RevokedAt⟩ : RevokedCert) ∈ content.revoked)
    ∧ (∀ e ∈ content.revoked, ∃ cr, cr ∈ s.certs ∧ cr.Status = "revoked"
      ∧ e.SerialNumber = (goSetStringInt10 cr.Serial.data).1
      ∧ e.RevocationTime = cr.RevokedAt)
    ∧ content.revoked.length = (s.certs.filter (fun cr => cr.Status = "revoked")).length := by
  have hrev : content.revoked = (GetRevokedCertificates s).map
      (fun cr => ⟨(goSetStringInt10 cr.Serial.data).1, cr.RevokedAt⟩) := by
    simp only [NewCRLFromDB] at h
    rw [if_neg (by simp), if_neg (by simp), Except.ok.injEq] at h
    exact (congrArg CRLContent.revoked h).symm
  refine ⟨?_, ?_, ?_⟩
  · intro cr hm hst
    rw [hrev]
    simp only [GetRevokedCertificates]
    exact List.mem_map_of_mem _ (List.mem_filter.mpr ⟨hm, by simp [hst]⟩)
  · intro e he
    rw [hrev] at he
    simp only [GetRevokedCertificates] at he
    obtain ⟨cr, hcr, rfl⟩ := List.mem_map.mp he
    have hmf := List.mem_filter.mp hcr
    exact ⟨cr, hmf.1, by simpa using hmf.2, rfl, rfl⟩
  · rw [hrev]
    simp [GetRevokedCertificates]

/-- A sample two-record store for the `NewCRLFromDB` witness: serial 1 is
`good`, serial 2 is `revoked`. -/
def wDB4 : DBState :=
  ⟨[⟨"1", "lbl", "good", 0, ⟨9, "UTC"⟩, ⟨0, "UTC"⟩, "pem"⟩,
    ⟨"2", "lbl", "revoked", 0, ⟨9, "UTC"⟩, ⟨5, "UTC"⟩, "pem"⟩], [], ⟨7, "UTC"⟩⟩

/-- The CRL content `NewCRLFromDB` produces from `wDB4` with zero duration
at instant 6. -/
def wCRL4 : CRLContent :=
  ⟨[⟨2, ⟨5, "UTC"⟩⟩], ⟨6, "Local"⟩, ⟨604800000000006, "Local"⟩⟩

/-- Closed corollary of `newCRLFromDB_exactly_revoked` at the sample store:
only the revoked record appears, with its stored revocation time. -/
theorem newCRLFromDB_exactly_revoked_witness :
    (NewCRLFromDB wDB4 true true 0 ⟨6, "Local"⟩ = .ok wCRL4)
    ∧ (∀ cr ∈ wDB4.certs, cr.Status = "revoked" →
      (⟨(goSetStringInt10 cr.Serial.data).1, cr.RevokedAt⟩ : RevokedCert) ∈ wCRL4.revoked)
    ∧ wCRL4.revoked.length = (wDB4.certs.filter (fun cr => cr.Status = "revoked")).length :=
  ⟨rfl,
    (newCRLFromDB_exactly_revoked wDB4 0 ⟨6, "Local"⟩ wCRL4 rfl).1,
    (newCRLFromDB_exactly_revoked wDB4 0 ⟨6, "Local"⟩ wCRL4 rfl).2.2⟩
